import Mathlib

/-!
Shallow embedding of `src/_data/notion.js` from the chandler-family-blog
repository: the Notion response normalization pipeline (data-source
resolution, property flattening, slug derivation, and block-to-markup
conversion), together with theorems checking its specification.

JavaScript values are modelled as follows: optional / possibly-missing
fields become `Option`; the property bag and the produced post records
become association lists `List (String × _)` with JavaScript object-spread
semantics (later keys overwrite earlier values in place, new keys are
appended); the string-truthiness idiom `x || ''` becomes `strOrEmpty`;
thrown-and-caught exceptions of the fetch layer become `Except` outcomes
supplied by a `World` oracle.
-/

set_option autoImplicit false

namespace Notion

/-! ## JavaScript value helpers -/

/-- JavaScript `x || ''` on an optional string: `none` and `""` both collapse to `""`. -/
def strOrEmpty : Option String → String
  | none => ""
  | some s => s

/-- Lookup in a JavaScript object modelled as an association list
(`obj.k`, `undefined` when absent). -/
def objLookup (obj : List (String × String)) (k : String) : Option String :=
  (obj.find? (fun p => p.1 == k)).map (fun p => p.2)

/-- Object-spread assignment `{...obj, k: v}`: an existing key keeps its
position and gets the new value; a new key is appended at the end. -/
def objUpsert (obj : List (String × String)) (k : String) (v : String) :
    List (String × String) :=
  if obj.any (fun p => p.1 == k) then
    obj.map (fun p => if p.1 == k then (k, v) else p)
  else
    obj ++ [(k, v)]

/-! ## Data model

Mirrors the shapes `notion.js` reads out of the Notion API responses with
optional chaining: a text run is `{text: {content: …}}`, a file entry is
`{file: {url: …}}`, a select payload is `{name: …}`, each level possibly
absent. -/

structure TextObj where
  content : Option String
  deriving DecidableEq, Repr

structure TextRun where
  text : Option TextObj
  deriving DecidableEq, Repr

structure FileObj where
  url : Option String
  deriving DecidableEq, Repr

structure FileEntry where
  file : Option FileObj
  deriving DecidableEq, Repr

structure SelectPayload where
  name : Option String
  deriving DecidableEq, Repr

/-- A property value: the tag is `property.type` and the payload is the
field `property[property.type]` (possibly absent, hence `Option`).
For a kind the `switch` in `mapNotionResponseToTextContent` does not
handle, only the JavaScript truthiness of
`property[property.type] && property[property.type].length` matters to
the code, so `other` records exactly that Boolean. -/
inductive PropValue where
  | rich_text (payload : Option (List TextRun))
  | text (payload : Option (List TextRun))
  | title (payload : Option (List TextRun))
  | files (payload : Option (List FileEntry))
  | select (payload : Option SelectPayload)
  | other (payloadTruthyWithLength : Bool)
  deriving DecidableEq, Repr

structure RawPost where
  id : String
  created_time : String
  url : String
  properties : List (String × PropValue)
  deriving DecidableEq, Repr

/-! ## slugify

```js
function slugify(text) {
    return text ? text.toString().toLowerCase().trim()
      .normalize('NFD')
      .replace(/[̀-ͯ]/g, '')
      .replace(/\s+/g, '-')
      .replace(/&/g, '-and-')
      .replace(/[^\w\-]+/g, '')
      .replace(HYPHEN_RUNS, '-') : '';
}
```
(the last regex literal, `HYPHEN_RUNS` above, matches runs of two or more
hyphens; its slash-hyphen spelling cannot appear verbatim inside a Lean
comment).
Each chained call is one definition below, applied in the same order. -/

/-- Models `String.prototype.toLowerCase` restricted to the Basic Latin and
Latin-1 ranges (simple Unicode lowercase mapping there: add 32, except
the multiplication sign). -/
def jsToLower (c : Char) : Char :=
  if 'A' ≤ c ∧ c ≤ 'Z' then Char.ofNat (c.toNat + 32)
  else if 0xC0 ≤ c.toNat ∧ c.toNat ≤ 0xDE ∧ c.toNat ≠ 0xD7 then Char.ofNat (c.toNat + 32)
  else c

/-- The JavaScript `\s` class (also used by `trim`): space, tab, line
terminators, NBSP, Unicode space separators, BOM. -/
def isJsSpace (c : Char) : Bool :=
  c == ' ' || c == '\t' || c == '\n' || c == '\r' ||
  c.toNat == 0x0B || c.toNat == 0x0C || c.toNat == 0xA0 || c.toNat == 0x1680 ||
  (0x2000 ≤ c.toNat && c.toNat ≤ 0x200A) ||
  c.toNat == 0x2028 || c.toNat == 0x2029 || c.toNat == 0x202F ||
  c.toNat == 0x205F || c.toNat == 0x3000 || c.toNat == 0xFEFF

/-- Models `String.prototype.trim`. -/
def jsTrim (l : List Char) : List Char :=
  ((l.dropWhile isJsSpace).reverse.dropWhile isJsSpace).reverse

/-- Models `String.prototype.normalize('NFD')` on one character: canonical
decomposition. Tabulated for the precomposed Latin-1 letters (each
decomposes into its base letter followed by a combining mark in
U+0300–U+036F); every other character is its own decomposition. -/
def nfdChar (c : Char) : List Char :=
  match c with
  | 'à' => ['a', Char.ofNat 0x300] | 'á' => ['a', Char.ofNat 0x301]
  | 'â' => ['a', Char.ofNat 0x302] | 'ã' => ['a', Char.ofNat 0x303]
  | 'ä' => ['a', Char.ofNat 0x308] | 'å' => ['a', Char.ofNat 0x30A]
  | 'ç' => ['c', Char.ofNat 0x327]
  | 'è' => ['e', Char.ofNat 0x300] | 'é' => ['e', Char.ofNat 0x301]
  | 'ê' => ['e', Char.ofNat 0x302] | 'ë' => ['e', Char.ofNat 0x308]
  | 'ì' => ['i', Char.ofNat 0x300] | 'í' => ['i', Char.ofNat 0x301]
  | 'î' => ['i', Char.ofNat 0x302] | 'ï' => ['i', Char.ofNat 0x308]
  | 'ñ' => ['n', Char.ofNat 0x303]
  | 'ò' => ['o', Char.ofNat 0x300] | 'ó' => ['o', Char.ofNat 0x301]
  | 'ô' => ['o', Char.ofNat 0x302] | 'õ' => ['o', Char.ofNat 0x303]
  | 'ö' => ['o', Char.ofNat 0x308]
  | 'ù' => ['u', Char.ofNat 0x300] | 'ú' => ['u', Char.ofNat 0x301]
  | 'û' => ['u', Char.ofNat 0x302] | 'ü' => ['u', Char.ofNat 0x308]
  | 'ý' => ['y', Char.ofNat 0x301] | 'ÿ' => ['y', Char.ofNat 0x308]
  | _ => [c]

def nfd (l : List Char) : List Char :=
  l.flatMap nfdChar

/-- Membership in the combining-mark block the code strips:
`/[̀-ͯ]/`. -/
def isCombiningMark (c : Char) : Bool :=
  0x300 ≤ c.toNat && c.toNat ≤ 0x36F

/-- Step `.replace(/[̀-ͯ]/g, '')`. -/
def stripCombiningMarks (l : List Char) : List Char :=
  l.filter (fun c => !isCombiningMark c)

/-- Step `.replace(/\s+/g, '-')`: each maximal whitespace run becomes one
hyphen. The Boolean argument records whether the previous character was
whitespace (its run already emitted its hyphen). -/
def collapseSpacesAux : Bool → List Char → List Char
  | _, [] => []
  | prevSpace, c :: rest =>
    if isJsSpace c then
      (if prevSpace then [] else ['-']) ++ collapseSpacesAux true rest
    else
      c :: collapseSpacesAux false rest

def collapseSpaces (l : List Char) : List Char :=
  collapseSpacesAux false l

/-- Step `.replace(/&/g, '-and-')`. -/
def replaceAmp (l : List Char) : List Char :=
  l.flatMap (fun c => if c == '&' then ['-', 'a', 'n', 'd', '-'] else [c])

/-- Class `\w` of JavaScript regexes without the `u` flag: ASCII word chars. -/
def isWordChar (c : Char) : Bool :=
  ('a' ≤ c && c ≤ 'z') || ('A' ≤ c && c ≤ 'Z') || ('0' ≤ c && c ≤ '9') || c == '_'

/-- Step `.replace(/[^\w\-]+/g, '')`. -/
def stripNonWord (l : List Char) : List Char :=
  l.filter (fun c => isWordChar c || c == '-')

/-- Step replacing hyphen runs (global regex `--+`, the last `.replace` of
the chain): each maximal run of two or more hyphens
becomes one hyphen (a lone hyphen matches nothing and stays). The
Boolean argument records whether the previous character was a hyphen. -/
def collapseHyphensAux : Bool → List Char → List Char
  | _, [] => []
  | prevHyphen, c :: rest =>
    if c == '-' then
      (if prevHyphen then [] else ['-']) ++ collapseHyphensAux true rest
    else
      c :: collapseHyphensAux false rest

def collapseHyphens (l : List Char) : List Char :=
  collapseHyphensAux false l

/-- The method chain of `slugify` on a (truthy) string. -/
def slugifyChain (s : String) : String :=
  String.mk
    (collapseHyphens
      (stripNonWord
        (replaceAmp
          (collapseSpaces
            (stripCombiningMarks
              (nfd
                (jsTrim
                  (s.toList.map jsToLower))))))))

/-- Function `slugify(text)`: `undefined` and `""` are falsy, giving `''`. -/
def slugify : Option String → String
  | none => ""
  | some s => if s = "" then "" else slugifyChain s

/-! ## Property flattening -/

/-- Chain `property[property.type][0]?.text?.content || ''` for the
text-like kinds. -/
def firstRunContent (runs : List TextRun) : String :=
  match runs with
  | [] => ""
  | r :: _ =>
    match r.text with
    | none => ""
    | some t => strOrEmpty t.content

/-- Chain `property[property.type][0]?.file?.url || ''` for the `files`
kind. -/
def firstFileUrl (entries : List FileEntry) : String :=
  match entries with
  | [] => ""
  | e :: _ =>
    match e.file with
    | none => ""
    | some f => strOrEmpty f.url

/-- Shared body of the `rich_text` / `text` / `title` cases of the
`switch`: return a one-key object when the payload is a non-empty array,
otherwise fall through (`undefined`). -/
def mapTextLikePayload (key : String) (payload : Option (List TextRun)) :
    Option (String × String) :=
  match payload with
  | some runs => if runs.length > 0 then some (key, firstRunContent runs) else none
  | none => none

/-- Function `mapNotionResponseToTextContent([key, property])`: `none`
models both the fall-through `undefined` and the caught per-property
exception. -/
def mapNotionResponseToTextContent : String × PropValue → Option (String × String)
  | (key, .rich_text payload) => mapTextLikePayload key payload
  | (key, .text payload) => mapTextLikePayload key payload
  | (key, .title payload) => mapTextLikePayload key payload
  | (key, .files payload) =>
    match payload with
    | some entries => if entries.length > 0 then some (key, firstFileUrl entries) else none
    | none => none
  | (key, .select payload) =>
    match payload with
    | some opt => some (key, strOrEmpty opt.name)
    | none => none
  | (_, .other _) => none

/-- Truthiness of `property[property.type] && property[property.type].length`
for an array payload: present with non-zero length. -/
def arrayTruthyLength {α : Type} : Option (List α) → Bool
  | some l => l.length != 0
  | none => false

/-- The filter predicate
`property.select || (property[property.type] && property[property.type].length)`:
for a non-select kind `property.select` is `undefined`, so the second
disjunct decides; for the select kind the payload object itself decides. -/
def propertyFilter : String × PropValue → Bool
  | (_, .rich_text payload) => arrayTruthyLength payload
  | (_, .text payload) => arrayTruthyLength payload
  | (_, .title payload) => arrayTruthyLength payload
  | (_, .files payload) => arrayTruthyLength payload
  | (_, .select payload) => payload.isSome
  | (_, .other b) => b

/-- Spread-merge `{...prev, ...cur}` where `cur` is either `undefined`
(spreads to nothing) or a one-key object. -/
def spreadStep (prev : List (String × String)) :
    Option (String × String) → List (String × String)
  | none => prev
  | some (k, v) => objUpsert prev k v

/-- The `Object.entries(post.properties).filter(...).map(...).reduce(...)`
chain building one post's flattened property mapping. -/
def flattenedProperties (props : List (String × PropValue)) : List (String × String) :=
  ((props.filter propertyFilter).map mapNotionResponseToTextContent).foldl spreadStep []

/-- Builds `{id, created: post.created_time, url, slug:
slugify(flattenedProperties.Title), ...flattenedProperties}`, the body of
the first `.map` of the default export. -/
def flattenRawPost (post : RawPost) : List (String × String) :=
  let flat := flattenedProperties post.properties
  let base : List (String × String) :=
    [("id", post.id), ("created", post.created_time), ("url", post.url),
     ("slug", slugify (objLookup flat "Title"))]
  flat.foldl (fun acc p => objUpsert acc p.1 p.2) base

/-! ## Block renderer -/

inductive BlockType where
  | heading_1
  | heading_2
  | heading_3
  | bulleted_list_item
  | paragraph
  | image
  | unsupported
  deriving DecidableEq, Repr

/-- Payload `block[block.type]` of a block: the branches of the `switch`
read `blockContent?.text?.[0]?.text?.content` and
`blockContent?.file?.url`, so both fields are kept, each optional. -/
structure BlockContent where
  text : Option (List TextRun)
  file : Option FileObj
  deriving DecidableEq, Repr

/-- A fetched block: `missingType` covers a falsy block or one without a
`type` field (`if (!block || !block.type) return ''`); otherwise a type
tag — `unsupported` is any tag the `switch` does not name — and the
possibly-falsy payload `block[block.type]`. -/
inductive Block where
  | missingType
  | node (type : BlockType) (content : Option BlockContent)
  deriving DecidableEq, Repr

/-- Chain `blockContent?.text?.[0]?.text?.content || ''`. -/
def blockFirstText (bc : BlockContent) : String :=
  match bc.text with
  | some (r :: _) =>
    (match r.text with
     | none => ""
     | some t => strOrEmpty t.content)
  | _ => ""

/-- Chain `blockContent?.file?.url || ''`. -/
def blockFileUrl (bc : BlockContent) : String :=
  match bc.file with
  | none => ""
  | some f => strOrEmpty f.url

/-- The per-block arrow of `.map(block => ...)`: the `switch` filling
`mdConvert` (first component) and `mdText` (second component), then
`mdConvert && mdText ? mdConvert + ' ' + mdText : mdText`. -/
def mapBlock : Block → String
  | .missingType => ""
  | .node t content =>
    match content with
    | none => ""
    | some bc =>
      let pair : String × String :=
        match t with
        | .heading_1 => ("#", blockFirstText bc)
        | .heading_2 => ("##", blockFirstText bc)
        | .heading_3 => ("###", blockFirstText bc)
        | .bulleted_list_item => ("- ", blockFirstText bc)
        | .paragraph => ("", blockFirstText bc)
        | .image => ("", "![post block related](" ++ blockFileUrl bc ++ ")")
        | .unsupported => ("", blockFirstText bc)
      if pair.1 != "" && pair.2 != "" then pair.1 ++ " " ++ pair.2 else pair.2

/-- The `.map(...).filter(text => text.length > 0)` chain over one post's
fetched blocks. -/
def renderBlockLines (blocks : List Block) : List String :=
  (blocks.map mapBlock).filter (fun t => t.length > 0)

/-- Surviving lines joined with `'\n'`. -/
def renderBlockResults (blocks : List Block) : String :=
  String.intercalate "\n" (renderBlockLines blocks)

/-! ## Fetch pipeline -/

structure DataSource where
  id : String
  deriving DecidableEq, Repr

/-- Response of `GET /databases/:id`; the `data_sources` field may be
absent. -/
structure DatabaseMeta where
  data_sources : Option (List DataSource)
  deriving DecidableEq, Repr

/-- Response of the data-source query; the `results` field may be
absent. -/
structure QueryResponse where
  results : Option (List RawPost)
  deriving DecidableEq, Repr

/-- Response of `GET /blocks/:id/children`; the code reads
`blockData.results || []`, so `results` may be absent. -/
structure BlockChildrenResponse where
  results : Option (List Block)
  deriving DecidableEq, Repr

/-- Outcomes of the three network fetches; `Except.error` models the
underlying request (or the cache layer) throwing. -/
structure World where
  dbMeta : Except String DatabaseMeta
  queryOutcome : Except String QueryResponse
  blockChildren : String → Except String BlockChildrenResponse

/-- Function `getDataSourceId`: returns the first data source's id; throws
`"No data sources found in database"` when the field is absent or empty;
its `catch` only logs and re-throws, so a fetch failure propagates
unchanged. -/
def getDataSourceId (w : World) : Except String String :=
  match w.dbMeta with
  | .error e => .error e
  | .ok meta =>
    match meta.data_sources with
    | some (ds :: _) => .ok ds.id
    | _ => .error "No data sources found in database"

/-- Function `getDatabaseData`: on success returns `dataBaseData.results`
(possibly `undefined`, hence the `Option`); any error thrown by
`getDataSourceId` or the query fetch is caught and `[]` returned. -/
def getDatabaseData (w : World) : Option (List RawPost) :=
  match getDataSourceId w with
  | .error _ => some []
  | .ok _ =>
    match w.queryOutcome with
    | .error _ => some []
    | .ok resp => resp.results

/-- One iteration of the `Promise.all` body:
`getPageBlockChildrenData(result.id)` (no local `catch`, so a fetch
failure propagates), then the block conversion and
`{...result, block: mappedBlockData}`. -/
def attachBlock (w : World) (result : List (String × String)) :
    Except String (List (String × String)) :=
  match w.blockChildren (strOrEmpty (objLookup result "id")) with
  | .error e => .error e
  | .ok blockData =>
    .ok (objUpsert result "block"
          (renderBlockResults
            (match blockData.results with
             | none => []
             | some bs => bs)))

/-- Semantics of `Promise.all`: either every element resolved and the
values are collected positionally, or some element rejected and the whole
batch rejects. -/
def collectAll : List (Except String (List (String × String))) →
    Except String (List (List (String × String)))
  | [] => .ok []
  | .error e :: _ => .error e
  | .ok x :: rest =>
    match collectAll rest with
    | .error e => .error e
    | .ok xs => .ok (x :: xs)

structure BuildResult where
  posts : List (List (String × String))
  deriving DecidableEq, Repr

/-- The default export: queries the posts, flattens each, attaches each
post's rendered block text via `Promise.all`, and catches any error at the
top level, resolving to `{posts: []}`. A `none` from `getDatabaseData`
models a query response without a `results` field, on which
`databaseData.map` throws and the same top-level handler catches. -/
def buildPosts (w : World) : BuildResult :=
  match getDatabaseData w with
  | none => ⟨[]⟩
  | some rawPosts =>
    let results := rawPosts.map flattenRawPost
    match collectAll (results.map (attachBlock w)) with
    | .error _ => ⟨[]⟩
    | .ok posts => ⟨posts⟩

/-- Net contribution of one property entry to the flattened mapping:
the `filter` gate followed by `mapNotionResponseToTextContent`. -/
def propertyContribution (e : String × PropValue) : Option (String × String) :=
  if propertyFilter e then mapNotionResponseToTextContent e else none

/-! ## Concrete example data -/

/-- A text run `{text: {content: s}}`. -/
def mkRun (s : String) : TextRun := ⟨some ⟨some s⟩⟩

/-- The example post of the specification: a `Title` title run
`"My Post"` and a `Status` select `"Published"`. -/
def examplePost : RawPost :=
  { id := "p-1", created_time := "2025-01-01T00:00:00.000Z",
    url := "https://notion.so/p-1",
    properties := [("Title", PropValue.title (some [mkRun "My Post"])),
                   ("Status", PropValue.select (some ⟨some "Published"⟩))] }

/-- A post whose property bag also carries non-empty properties literally
named `slug` and `id`. -/
def overridePost : RawPost :=
  { id := "p-2", created_time := "t2", url := "u2",
    properties := [("Title", PropValue.title (some [mkRun "My Post"])),
                   ("slug", PropValue.rich_text (some [mkRun "custom-slug"])),
                   ("id", PropValue.rich_text (some [mkRun "custom-id"]))] }

/-- Block content holding only a first text run. -/
def textContent (s : String) : BlockContent := ⟨some [mkRun s], none⟩

/-- The example block list of the specification: a level-1 heading, a
paragraph, and an image. -/
def exampleBlocks : List Block :=
  [Block.node .heading_1 (some (textContent "Intro")),
   Block.node .paragraph (some (textContent "Body text")),
   Block.node .image (some ⟨none, some ⟨some "http://x/y.png"⟩⟩)]

/-- The markup body `exampleBlocks` renders to. -/
def exampleBody : String :=
  "# Intro\nBody text\n![post block related](http://x/y.png)"

/-- A world whose query request fails. -/
def failingQueryWorld : World :=
  { dbMeta := .ok ⟨some [⟨"ds-1"⟩]⟩,
    queryOutcome := .error "request failed",
    blockChildren := fun _ => .ok ⟨some []⟩ }

/-- A world whose database metadata lists one data source. -/
def oneSourceWorld : World :=
  { dbMeta := .ok ⟨some [⟨"ds-1"⟩]⟩, queryOutcome := .ok ⟨some []⟩,
    blockChildren := fun _ => .ok ⟨some []⟩ }

/-- A world whose database metadata lists an empty data-source field. -/
def emptySourceWorld : World :=
  { dbMeta := .ok ⟨some []⟩, queryOutcome := .ok ⟨some []⟩,
    blockChildren := fun _ => .ok ⟨some []⟩ }

/-- A fully successful world: the query delivers `examplePost` then
`overridePost`, and every block-children fetch delivers
`exampleBlocks`. -/
def happyWorld : World :=
  { dbMeta := .ok ⟨some [⟨"ds-1"⟩]⟩,
    queryOutcome := .ok ⟨some [examplePost, overridePost]⟩,
    blockChildren := fun _ => .ok ⟨some exampleBlocks⟩ }

/-- Expected output record for `examplePost` in `happyWorld`. -/
def examplePostOut : List (String × String) :=
  [("id", "p-1"), ("created", "2025-01-01T00:00:00.000Z"),
   ("url", "https://notion.so/p-1"), ("slug", "my-post"),
   ("Title", "My Post"), ("Status", "Published"), ("block", exampleBody)]

/-- Expected output record for `overridePost` in `happyWorld`: the
properties named `id` and `slug` overwrote the canonical values. -/
def overridePostOut : List (String × String) :=
  [("id", "custom-id"), ("created", "t2"), ("url", "u2"),
   ("slug", "custom-slug"), ("Title", "My Post"), ("block", exampleBody)]

/-- Expected `buildPosts` output in `happyWorld`. -/
def happyPosts : List (List (String × String)) :=
  [examplePostOut, overridePostOut]

/-! ## Helper lemmas -/

theorem find?_not_found (l : List (String × String)) (k : String)
    (h : l.any (fun p => p.1 == k) = false) :
    l.find? (fun p => p.1 == k) = none := by
  induction l with
  | nil => rfl
  | cons p rest ih =>
    rw [List.any_cons, Bool.or_eq_false_iff] at h
    rw [List.find?_cons, h.1]
    exact ih h.2

theorem find?_map_overwrite (l : List (String × String)) (k v : String)
    (h : l.any (fun p => p.1 == k) = true) :
    (l.map (fun p => if p.1 == k then (k, v) else p)).find? (fun p => p.1 == k) =
      some (k, v) := by
  induction l with
  | nil => simp at h
  | cons p rest ih =>
    rw [List.map_cons, List.find?_cons]
    by_cases hp : (p.1 == k) = true
    · rw [if_pos hp]
      simp only [beq_self_eq_true]
    · have hpf : (p.1 == k) = false := Bool.eq_false_iff.mpr hp
      rw [List.any_cons, hpf, Bool.false_or] at h
      rw [if_neg hp]
      simp only [hpf]
      exact ih h

theorem find?_append_new (l : List (String × String)) (k v : String)
    (h : l.any (fun p => p.1 == k) = false) :
    (l ++ [(k, v)]).find? (fun p => p.1 == k) = some (k, v) := by
  rw [List.find?_append, find?_not_found l k h]
  simp only [Option.none_or, List.find?_cons, beq_self_eq_true]

theorem find?_map_preserve (l : List (String × String)) (k v q : String)
    (hkq : (k == q) = false) :
    (l.map (fun p => if p.1 == k then (k, v) else p)).find? (fun p => p.1 == q) =
      l.find? (fun p => p.1 == q) := by
  induction l with
  | nil => rfl
  | cons p rest ih =>
    rw [List.map_cons, List.find?_cons, List.find?_cons]
    by_cases hp : (p.1 == k) = true
    · have hp1 : p.1 = k := eq_of_beq hp
      have hpq : (p.1 == q) = false := by rw [hp1]; exact hkq
      rw [if_pos hp]
      simp only [hkq, hpq]
      exact ih
    · rw [if_neg hp]
      cases hq : (p.1 == q) with
      | true => simp only [hq]
      | false => simp only [hq]; exact ih

theorem find?_append_keep (l : List (String × String)) (k v q : String)
    (hkq : (k == q) = false) :
    (l ++ [(k, v)]).find? (fun p => p.1 == q) = l.find? (fun p => p.1 == q) := by
  rw [List.find?_append]
  cases hfind : l.find? (fun p => p.1 == q) with
  | some p0 => rfl
  | none =>
    simp only [Option.none_or, List.find?_cons, hkq]
    rfl

theorem objLookup_upsert_self (obj : List (String × String)) (k v : String) :
    objLookup (objUpsert obj k v) k = some v := by
  unfold objUpsert objLookup
  by_cases h : obj.any (fun p => p.1 == k) = true
  · rw [if_pos h, find?_map_overwrite obj k v h]
    rfl
  · have hf : obj.any (fun p => p.1 == k) = false := Bool.eq_false_iff.mpr h
    rw [if_neg h, find?_append_new obj k v hf]
    rfl

theorem objLookup_upsert_other (obj : List (String × String)) (k v q : String)
    (hq : q ≠ k) :
    objLookup (objUpsert obj k v) q = objLookup obj q := by
  have hkq : (k == q) = false := beq_eq_false_iff_ne.mpr (fun hkq => hq hkq.symm)
  unfold objUpsert objLookup
  by_cases h : obj.any (fun p => p.1 == k) = true
  · rw [if_pos h, find?_map_preserve obj k v q hkq]
  · rw [if_neg h, find?_append_keep obj k v q hkq]

theorem objLookup_upsert_isSome (obj : List (String × String)) (k v q : String)
    (h : (objLookup obj q).isSome = true) :
    (objLookup (objUpsert obj k v) q).isSome = true := by
  by_cases hq : q = k
  · subst hq
    rw [objLookup_upsert_self]
    rfl
  · rw [objLookup_upsert_other obj k v q hq]
    exact h

theorem foldl_upsert_isSome (flat : List (String × String))
    (base : List (String × String)) (q : String)
    (h : (objLookup base q).isSome = true) :
    (objLookup (flat.foldl (fun acc p => objUpsert acc p.1 p.2) base) q).isSome = true := by
  induction flat generalizing base with
  | nil => exact h
  | cons p rest ih => exact ih _ (objLookup_upsert_isSome base p.1 p.2 q h)

theorem foldl_spread_skip_none (A B : List (Option (String × String)))
    (acc : List (String × String)) :
    (A ++ none :: B).foldl spreadStep acc = (A ++ B).foldl spreadStep acc := by
  rw [List.foldl_append, List.foldl_append, List.foldl_cons]
  rfl

theorem flattenedProperties_skip (props1 props2 : List (String × PropValue))
    (e : String × PropValue) (hbad : mapNotionResponseToTextContent e = none) :
    flattenedProperties (props1 ++ e :: props2) =
      flattenedProperties (props1 ++ props2) := by
  unfold flattenedProperties
  rw [List.filter_append, List.filter_append]
  cases hf : propertyFilter e with
  | false => rw [List.filter_cons_of_neg (by simp [hf])]
  | true =>
    rw [List.filter_cons_of_pos (by simp [hf])]
    rw [List.map_append, List.map_append, List.map_cons, hbad]
    exact foldl_spread_skip_none _ _ _

theorem flattenedProperties_eq_filterMap (props : List (String × PropValue)) :
    flattenedProperties props =
      (props.filterMap propertyContribution).foldl
        (fun acc p => objUpsert acc p.1 p.2) [] := by
  suffices h : ∀ acc : List (String × String),
      ((props.filter propertyFilter).map mapNotionResponseToTextContent).foldl
          spreadStep acc =
        (props.filterMap propertyContribution).foldl
          (fun acc p => objUpsert acc p.1 p.2) acc from h []
  induction props with
  | nil => intro acc; rfl
  | cons e rest ih =>
    intro acc
    by_cases hf : propertyFilter e = true
    · cases hm : mapNotionResponseToTextContent e with
      | none =>
        simp only [List.filter_cons, hf, if_true, List.filterMap_cons,
          propertyContribution, hm, List.map_cons, List.foldl_cons, spreadStep]
        exact ih acc
      | some kv =>
        simp only [List.filter_cons, hf, if_true, List.filterMap_cons,
          propertyContribution, hm, List.map_cons, List.foldl_cons, spreadStep]
        exact ih _
    · have hff : propertyFilter e = false := Bool.eq_false_iff.mpr hf
      simp only [List.filter_cons, hff, Bool.false_eq_true, if_false,
        List.filterMap_cons, propertyContribution, hff]
      exact ih acc

theorem collectAll_ok_spec (l : List (Except String (List (String × String))))
    (out : List (List (String × String))) (h : collectAll l = Except.ok out) :
    out.length = l.length ∧
      ∀ i (hi : i < l.length) (ho : i < out.length),
        l.get ⟨i, hi⟩ = Except.ok (out.get ⟨i, ho⟩) := by
  induction l generalizing out with
  | nil =>
    simp only [collectAll] at h
    cases h
    exact ⟨rfl, fun i hi _ => absurd hi (by simp)⟩
  | cons x rest ih =>
    cases x with
    | error e => simp [collectAll] at h
    | ok v =>
      cases hr : collectAll rest with
      | error e => simp [collectAll, hr] at h
      | ok xs =>
        simp only [collectAll, hr] at h
        cases h
        obtain ⟨hlen, hidx⟩ := ih xs hr
        refine ⟨by simp [hlen], ?_⟩
        intro i hi ho
        cases i with
        | zero => rfl
        | succ j =>
          exact hidx j (Nat.lt_of_succ_lt_succ (by simpa using hi))
            (Nat.lt_of_succ_lt_succ (by simpa using ho))

/-! ## Claim theorems -/

/-- C1: for every raw property bag, `flatten` never throws — the result is
a total, well-formed record whose canonical fields are always present —
and a single property whose conversion produces nothing (excluded or the
caught exception case) is isolated at that property's granularity: it is
omitted from the flattened mapping and the rest of the bag is
unaffected. -/
theorem flatten_total_and_fault_isolated (post : RawPost)
    (props1 props2 : List (String × PropValue)) (e : String × PropValue)
    (hbad : mapNotionResponseToTextContent e = none) :
    ((objLookup (flattenRawPost post) "id").isSome = true ∧
     (objLookup (flattenRawPost post) "created").isSome = true ∧
     (objLookup (flattenRawPost post) "url").isSome = true ∧
     (objLookup (flattenRawPost post) "slug").isSome = true) ∧
    flattenedProperties (props1 ++ e :: props2) =
      flattenedProperties (props1 ++ props2) :=
  ⟨⟨foldl_upsert_isSome _ _ _ rfl, foldl_upsert_isSome _ _ _ rfl,
    foldl_upsert_isSome _ _ _ rfl, foldl_upsert_isSome _ _ _ rfl⟩,
   flattenedProperties_skip props1 props2 e hbad⟩

/-- C1 witness: instantiation at `examplePost` and at a bag holding a
property of an unhandled kind whose conversion yields nothing. -/
theorem flatten_total_and_fault_isolated_witness :
    ((objLookup (flattenRawPost examplePost) "id").isSome = true ∧
     (objLookup (flattenRawPost examplePost) "created").isSome = true ∧
     (objLookup (flattenRawPost examplePost) "url").isSome = true ∧
     (objLookup (flattenRawPost examplePost) "slug").isSome = true) ∧
    flattenedProperties
        ([("Title", PropValue.title (some [mkRun "My Post"]))] ++
          ("Bad", PropValue.other true) :: []) =
      flattenedProperties
        ([("Title", PropValue.title (some [mkRun "My Post"]))] ++ []) :=
  flatten_total_and_fault_isolated examplePost _ _ _ rfl

/-- C2: `slugify` applies, in order, lowercase, trim, canonical
decomposition, combining-mark stripping, whitespace-run collapse to
hyphens, ampersand to `-and-`, non-word stripping and hyphen-run
collapse; the spec's example yields `hello-and-world-deja-vu`, and the
empty or `undefined` title yields the empty slug, not an error. -/
theorem slugify_spec :
    (∀ s : String, slugify (some s) =
      if s = "" then ""
      else
        String.mk (collapseHyphens (stripNonWord (replaceAmp (collapseSpaces
          (stripCombiningMarks (nfd (jsTrim (s.toList.map jsToLower))))))))) ∧
    slugify (some "Hello & World! Déjà Vu") = "hello-and-world-deja-vu" ∧
    slugify (some "") = "" ∧
    slugify none = "" :=
  ⟨fun _ => rfl, rfl, rfl, rfl⟩

/-- C3: `flatten` keeps exactly the non-empty properties — select kind:
payload non-null; array-payload kinds: non-empty array — mapping
text-like kinds to the first run's content, files to the first entry's
URL, select to the option's name, and excluding every other kind
entirely; the spec's example post flattens as stated. -/
theorem flatten_per_kind_spec :
    (∀ props, flattenedProperties props =
      (props.filterMap propertyContribution).foldl
        (fun acc p => objUpsert acc p.1 p.2) []) ∧
    (∀ k, propertyContribution (k, PropValue.rich_text none) = none) ∧
    (∀ k, propertyContribution (k, PropValue.rich_text (some [])) = none) ∧
    (∀ k r rs, propertyContribution (k, PropValue.rich_text (some (r :: rs))) =
      some (k, firstRunContent (r :: rs))) ∧
    (∀ k, propertyContribution (k, PropValue.text none) = none) ∧
    (∀ k, propertyContribution (k, PropValue.text (some [])) = none) ∧
    (∀ k r rs, propertyContribution (k, PropValue.text (some (r :: rs))) =
      some (k, firstRunContent (r :: rs))) ∧
    (∀ k, propertyContribution (k, PropValue.title none) = none) ∧
    (∀ k, propertyContribution (k, PropValue.title (some [])) = none) ∧
    (∀ k r rs, propertyContribution (k, PropValue.title (some (r :: rs))) =
      some (k, firstRunContent (r :: rs))) ∧
    (∀ k, propertyContribution (k, PropValue.files none) = none) ∧
    (∀ k, propertyContribution (k, PropValue.files (some [])) = none) ∧
    (∀ k f fs, propertyContribution (k, PropValue.files (some (f :: fs))) =
      some (k, firstFileUrl (f :: fs))) ∧
    (∀ k, propertyContribution (k, PropValue.select none) = none) ∧
    (∀ k opt, propertyContribution (k, PropValue.select (some opt)) =
      some (k, strOrEmpty opt.name)) ∧
    (∀ k b, propertyContribution (k, PropValue.other b) = none) ∧
    flattenRawPost examplePost =
      [("id", "p-1"), ("created", "2025-01-01T00:00:00.000Z"),
       ("url", "https://notion.so/p-1"), ("slug", "my-post"),
       ("Title", "My Post"), ("Status", "Published")] := by
  refine ⟨flattenedProperties_eq_filterMap, ?_, ?_, ?_, ?_, ?_, ?_, ?_, ?_,
    ?_, ?_, ?_, ?_, ?_, ?_, ?_, by decide⟩ <;>
  · intros
    simp [propertyContribution, propertyFilter, arrayTruthyLength,
      mapNotionResponseToTextContent, mapTextLikePayload]

/-- C4: `renderBlocks` prefixes level-1/2/3 headings with `#`/`##`/`###`,
bulleted items with `- `, leaves paragraphs unprefixed, synthesizes image
lines, emits `"<prefix> <text>"` only when both parts are non-empty (else
just the text), drops empty lines, joins survivors with a single newline,
and renders the spec's example block list as stated. -/
theorem render_blocks_spec :
    (∀ bc, mapBlock (Block.node .heading_1 (some bc)) =
      (if blockFirstText bc = "" then "" else "#" ++ " " ++ blockFirstText bc)) ∧
    (∀ bc, mapBlock (Block.node .heading_2 (some bc)) =
      (if blockFirstText bc = "" then "" else "##" ++ " " ++ blockFirstText bc)) ∧
    (∀ bc, mapBlock (Block.node .heading_3 (some bc)) =
      (if blockFirstText bc = "" then "" else "###" ++ " " ++ blockFirstText bc)) ∧
    (∀ bc, mapBlock (Block.node .bulleted_list_item (some bc)) =
      (if blockFirstText bc = "" then "" else "- " ++ " " ++ blockFirstText bc)) ∧
    (∀ bc, mapBlock (Block.node .paragraph (some bc)) = blockFirstText bc) ∧
    (∀ bc, mapBlock (Block.node .image (some bc)) =
      "![post block related](" ++ blockFileUrl bc ++ ")") ∧
    (∀ blocks, renderBlockResults blocks =
      String.intercalate "\n"
        ((blocks.map mapBlock).filter (fun t => t.length > 0))) ∧
    renderBlockResults exampleBlocks = exampleBody := by
  refine ⟨?_, ?_, ?_, ?_, fun bc => rfl, fun bc => rfl, fun blocks => rfl,
    by decide⟩ <;>
  · intro bc
    by_cases h : blockFirstText bc = "" <;> simp [mapBlock, h]

/-- C5: if the query request fails — or data-source resolution fails —
`queryPublishedPosts` yields the empty sequence and the whole pipeline
resolves to `{posts: []}`, no failure propagating out of `buildPosts`. -/
theorem query_failure_yields_empty (w : World)
    (h : (∃ e, w.queryOutcome = Except.error e) ∨
         (∃ e, getDataSourceId w = Except.error e)) :
    getDatabaseData w = some [] ∧ buildPosts w = ⟨[]⟩ := by
  have hdb : getDatabaseData w = some [] := by
    rcases h with ⟨e, he⟩ | ⟨e, he⟩
    · cases hd : getDataSourceId w with
      | error e2 => simp [getDatabaseData, hd]
      | ok ds => simp [getDatabaseData, hd, he]
    · simp [getDatabaseData, he]
  refine ⟨hdb, ?_⟩
  simp [buildPosts, hdb, collectAll]

/-- C5 witness: the world whose query request fails. -/
theorem query_failure_yields_empty_witness :
    getDatabaseData failingQueryWorld = some [] ∧
    buildPosts failingQueryWorld = ⟨[]⟩ :=
  query_failure_yields_empty failingQueryWorld (Or.inl ⟨"request failed", rfl⟩)

/-- C6: with fetched database metadata, `getDataSourceId` returns the
identifier of the first listed data source, and fails with the
no-data-source error, rather than returning a value, when the field is
absent or empty. -/
theorem data_source_resolution_spec (w : World) (meta : DatabaseMeta)
    (hmeta : w.dbMeta = Except.ok meta) :
    (∀ ds rest, meta.data_sources = some (ds :: rest) →
      getDataSourceId w = Except.ok ds.id) ∧
    ((meta.data_sources = none ∨ meta.data_sources = some []) →
      getDataSourceId w = Except.error "No data sources found in database") := by
  constructor
  · intro ds rest hds
    simp [getDataSourceId, hmeta, hds]
  · rintro (hds | hds) <;> simp [getDataSourceId, hmeta, hds]

/-- C6 witness: a one-source world resolves to that source's id; an
empty-source world fails with the no-data-source error. -/
theorem data_source_resolution_spec_witness :
    getDataSourceId oneSourceWorld = Except.ok "ds-1" ∧
    getDataSourceId emptySourceWorld =
      Except.error "No data sources found in database" :=
  ⟨(data_source_resolution_spec oneSourceWorld ⟨some [⟨"ds-1"⟩]⟩ rfl).1
      ⟨"ds-1"⟩ [] rfl,
   (data_source_resolution_spec emptySourceWorld ⟨some []⟩ rfl).2 (Or.inr rfl)⟩

/-- C7: a falsy or typeless block, a block with an absent payload, and an
unrecognized-type block without text all convert to the empty line, and
any block whose converted line is empty contributes nothing to the joined
body while the remaining blocks render unchanged — no failure aborts the
post's rendering. -/
theorem block_fault_isolation :
    mapBlock Block.missingType = "" ∧
    (∀ t, mapBlock (Block.node t none) = "") ∧
    (∀ bc, blockFirstText bc = "" →
      mapBlock (Block.node .unsupported (some bc)) = "") ∧
    (∀ (l1 l2 : List Block) (b : Block), mapBlock b = "" →
      renderBlockResults (l1 ++ b :: l2) = renderBlockResults (l1 ++ l2)) := by
  refine ⟨rfl, fun t => rfl, ?_, ?_⟩
  · intro bc h
    simp [mapBlock, h]
  · intro l1 l2 b h
    unfold renderBlockResults renderBlockLines
    simp only [List.map_append, List.map_cons, List.filter_append,
      List.filter_cons, h]
    simp

/-- C7 witness: an unrecognized block with no text is dropped, and
dropping a degraded block leaves the neighbours' rendering unchanged. -/
theorem block_fault_isolation_witness :
    mapBlock (Block.node .unsupported (some ⟨none, none⟩)) = "" ∧
    renderBlockResults (exampleBlocks ++ Block.missingType :: []) =
      renderBlockResults (exampleBlocks ++ []) :=
  ⟨block_fault_isolation.2.2.1 ⟨none, none⟩ rfl,
   block_fault_isolation.2.2.2 exampleBlocks [] Block.missingType
     block_fault_isolation.1⟩

/-- C8: when the query stage succeeds and every per-post block fetch
resolves, the pipeline output is collected positionally: one record per
raw post, the i-th output record being the i-th raw post flattened and
extended with its rendered body. -/
theorem output_order_positional (w : World) (raw : List RawPost)
    (posts : List (List (String × String)))
    (hq : getDatabaseData w = some raw)
    (hc : collectAll ((raw.map flattenRawPost).map (attachBlock w)) =
      Except.ok posts) :
    buildPosts w = ⟨posts⟩ ∧ posts.length = raw.length ∧
      ∀ i (hi : i < raw.length) (hp : i < posts.length),
        attachBlock w (flattenRawPost (raw.get ⟨i, hi⟩)) =
          Except.ok (posts.get ⟨i, hp⟩) := by
  obtain ⟨hlen, hidx⟩ := collectAll_ok_spec _ _ hc
  refine ⟨by simp only [buildPosts, hq, hc], by simpa using hlen, ?_⟩
  intro i hi hp
  have hi2 : i < ((raw.map flattenRawPost).map (attachBlock w)).length := by
    simpa using hi
  have hg := hidx i hi2 hp
  simpa using hg

/-- C8 witness: in the fully successful world the two posts come out in
query order, each extended with its rendered body. -/
theorem output_order_positional_witness :
    buildPosts happyWorld = ⟨happyPosts⟩ ∧
    attachBlock happyWorld (flattenRawPost examplePost) =
      Except.ok examplePostOut ∧
    attachBlock happyWorld (flattenRawPost overridePost) =
      Except.ok overridePostOut := by
  have h := output_order_positional happyWorld [examplePost, overridePost]
    happyPosts rfl rfl
  exact ⟨h.1, h.2.2 0 (by decide) (by decide), h.2.2 1 (by decide) (by decide)⟩

/-- C9: a non-empty property literally named `slug` or `id` overwrites the
canonical field, because the flattened property mapping is spread after
the fixed fields; in particular the slug derived from the title is
replaced by the property named `slug`. -/
theorem named_property_overwrites_fixed_fields :
    objLookup (flattenRawPost overridePost) "slug" = some "custom-slug" ∧
    objLookup (flattenRawPost overridePost) "id" = some "custom-id" ∧
    slugify (objLookup (flattenedProperties overridePost.properties) "Title") =
      "my-post" ∧
    objLookup (flattenRawPost overridePost) "slug" ≠ some "my-post" ∧
    objLookup (flattenRawPost overridePost) "id" ≠ some overridePost.id :=
  ⟨rfl, rfl, rfl, by decide, by decide⟩

/-- C10: an image block with a present payload object always emits a
non-empty line — the line `![post block related]()` when the file URL is
absent — and hence always survives the empty-line filter, unlike text
blocks with empty content. -/
theorem image_block_always_emits :
    (∀ bc, 0 < (mapBlock (Block.node .image (some bc))).length) ∧
    (∀ bc, blockFileUrl bc = "" →
      mapBlock (Block.node .image (some bc)) = "![post block related]()") ∧
    (∀ (blocks : List Block) (bc : BlockContent),
      Block.node .image (some bc) ∈ blocks →
      mapBlock (Block.node .image (some bc)) ∈ renderBlockLines blocks) := by
  have hline : ∀ bc, mapBlock (Block.node .image (some bc)) =
      "![post block related](" ++ blockFileUrl bc ++ ")" := fun bc => rfl
  have hpos : ∀ bc, 0 < (mapBlock (Block.node .image (some bc))).length := by
    intro bc
    rw [hline, String.length_append, String.length_append]
    have h1 : "![post block related](".length = 22 := rfl
    rw [h1]
    omega
  refine ⟨hpos, ?_, ?_⟩
  · intro bc h
    rw [hline, h]
    rfl
  · intro blocks bc hmem
    unfold renderBlockLines
    refine List.mem_filter.mpr ⟨List.mem_map_of_mem _ hmem, ?_⟩
    simpa using hpos bc

/-- C10 witness: an image block with an empty payload object emits the
fixed line and survives filtering. -/
theorem image_block_always_emits_witness :
    mapBlock (Block.node .image (some ⟨none, none⟩)) =
      "![post block related]()" ∧
    mapBlock (Block.node .image (some ⟨none, none⟩)) ∈
      renderBlockLines [Block.node .image (some ⟨none, none⟩)] :=
  ⟨image_block_always_emits.2.1 ⟨none, none⟩ rfl,
   image_block_always_emits.2.2 [Block.node .image (some ⟨none, none⟩)]
     ⟨none, none⟩ (List.mem_singleton.mpr rfl)⟩

end Notion
